import Mathlib

/-!
Verification of the MediaMTX core specification against a shallow embedding of
the repository's source.

The embedding covers:
* the stream fan-out structure (`streamNonRTSPReadersMap`, `stream` from the
  core stream file): reader set maintenance and `writeData` delivery;
* `newStream` construction and its error behaviour;
* the SRT session connection lifecycle (`conn.runPublish`, `conn.runRead`,
  `conn.runPublishReader`, `srtCheckPassphrase`): control flow is embedded as
  a function from an environment of operation outcomes to the trace of
  observable events the session performs, with Go `defer` statements modelled
  by appending the deferred events on every exit path, in LIFO order;
* the HLS static source supervisor (`hlsSource.run`, `hlsSource.runInner`);
* the recorder agent's fmp4 init-track generation and negative-DTS
  normalization (the agent implementation is absent from the sources; these
  are modelled from the spec, as marked on each definition).
-/

namespace MediaMtx

/-! ### SRT passphrase check (`srtCheckPassphrase`) -/

/-- Outcome-relevant view of an `srt.ConnRequest`: whether the connection is
encrypted and whether `SetPassphrase` with the configured passphrase
succeeds. -/
structure ConnRequest where
  encrypted : Bool
  passphraseAccepted : Bool
deriving DecidableEq, Repr

/-- Errors returned by `srtCheckPassphrase`. -/
inductive SrtPassErr where
  | notEncrypted
  | invalidPassphrase
deriving DecidableEq, Repr

/-- Embedding of `srtCheckPassphrase`: empty configured passphrase means no
check at all; otherwise the connection must be encrypted and the passphrase
must be accepted by `SetPassphrase`. -/
def srtCheckPassphrase (connReq : ConnRequest) (passphrase : String) : Option SrtPassErr :=
  if passphrase = "" then
    none
  else if connReq.encrypted = false then
    some SrtPassErr.notEncrypted
  else if connReq.passphraseAccepted = false then
    some SrtPassErr.invalidPassphrase
  else
    none

/-! ### Stream construction (`newStream`) -/

/-- A track of the description handed to `newStream`; only the property
relevant to `newStreamTrack` failure is kept. -/
structure track where
  supportedByPacketizer : Bool
deriving DecidableEq, Repr

/-- One `streamTrack` of a constructed stream. -/
structure streamTrack where
  source : track
deriving DecidableEq, Repr

/-- Errors during stream construction. -/
inductive StreamTrackErr where
  | unsupportedFormat
deriving DecidableEq, Repr

/-- Modelled from the spec: `newStreamTrack` is not under src/; per the spec a
format is rejected when it is unsupported by the RTP packetizer and
`generateRTPPackets` is true, and accepted otherwise. -/
def newStreamTrack (t : track) (generateRTPPackets : Bool) : Except StreamTrackErr streamTrack :=
  if generateRTPPackets && !t.supportedByPacketizer then
    Except.error StreamTrackErr.unsupportedFormat
  else
    Except.ok { source := t }

/-- The loop of `newStream`: build one `streamTrack` per track, aborting on
the first error, exactly as the Go `for` loop does. -/
def newStreamLoop (tracks : List track) (generateRTPPackets : Bool) :
    Except StreamTrackErr (List streamTrack) :=
  match tracks with
  | [] => Except.ok []
  | t :: rest =>
    match newStreamTrack t generateRTPPackets with
    | Except.error e => Except.error e
    | Except.ok st =>
      match newStreamLoop rest generateRTPPackets with
      | Except.error e => Except.error e
      | Except.ok sts => Except.ok (st :: sts)

/-- The result of `newStream`: the `streamTracks` slice. -/
structure builtStream where
  streamTracks : List streamTrack
deriving DecidableEq, Repr

/-- Embedding of `newStream`: allocates the stream, then fills
`streamTracks` with one entry per track of the description; note there is no
check that the description is non-empty. -/
def newStream (tracks : List track) (generateRTPPackets : Bool) :
    Except StreamTrackErr builtStream :=
  match newStreamLoop tracks generateRTPPackets with
  | Except.error e => Except.error e
  | Except.ok sts => Except.ok { streamTracks := sts }

/-! ### Stream fan-out (`streamNonRTSPReadersMap`, `stream.writeData`) -/

/-- A reader registered with a stream; `isPathRTSPSession` models the Go type
assertion `r.(pathRTSPSession)` in `readerAdd`/`readerRemove`. -/
structure reader where
  id : Nat
  isPathRTSPSession : Bool
deriving DecidableEq, Repr

/-- Insertion into the `streamNonRTSPReadersMap` map (Go map set semantics:
inserting a present key leaves the map unchanged). -/
def readersAdd (m : List reader) (r : reader) : List reader :=
  if r ∈ m then m else m ++ [r]

/-- Deletion from the `streamNonRTSPReadersMap` map. -/
def readersRemove (m : List reader) (r : reader) : List reader :=
  m.filter (fun x => x != r)

/-- Observable state of a `stream`: the non-RTSP readers map plus the log of
`onReaderData` invocations performed so far, in order.  Each log entry pairs
the reader with the index of the `writeData` call that delivered to it. -/
structure StreamModel where
  nonRTSPReaders : List reader
  log : List (reader × Nat)
deriving DecidableEq, Repr

/-- `stream.readerAdd`: non-RTSP readers are added to the map, RTSP readers
are not (they are served by the RTSP server stream instead). -/
def streamReaderAdd (s : StreamModel) (r : reader) : StreamModel :=
  if r.isPathRTSPSession then s
  else { s with nonRTSPReaders := readersAdd s.nonRTSPReaders r }

/-- `stream.readerRemove`. -/
def streamReaderRemove (s : StreamModel) (r : reader) : StreamModel :=
  if r.isPathRTSPSession then s
  else { s with nonRTSPReaders := readersRemove s.nonRTSPReaders r }

/-- `stream.writeData` restricted to its non-RTSP branch
(`streamNonRTSPReadersMap.writeData`): invoke `onReaderData` once per reader
currently in the map. -/
def streamWriteData (s : StreamModel) (d : Nat) : StreamModel :=
  { s with log := s.log ++ s.nonRTSPReaders.map (fun r => (r, d)) }

/-- The operations a path and its sessions perform on a stream. -/
inductive StreamOp where
  | readerAdd (r : reader)
  | readerRemove (r : reader)
  | writeData (d : Nat)
deriving DecidableEq, Repr

/-- One step of the stream model. -/
def applyOp (s : StreamModel) : StreamOp → StreamModel
  | StreamOp.readerAdd r => streamReaderAdd s r
  | StreamOp.readerRemove r => streamReaderRemove s r
  | StreamOp.writeData d => streamWriteData s d

/-- Run a sequence of operations. -/
def runOps (s : StreamModel) : List StreamOp → StreamModel
  | [] => s
  | op :: rest => runOps (applyOp s op) rest

/-- A freshly constructed stream: empty reader map, nothing delivered. -/
def initStream : StreamModel := { nonRTSPReaders := [], log := [] }

/-- Representation invariant of the reader map: no duplicate entries (it is a
map keyed by reader) and it only ever holds non-RTSP readers. -/
def StreamInv (s : StreamModel) : Prop :=
  s.nonRTSPReaders.Nodup ∧ ∀ r ∈ s.nonRTSPReaders, r.isPathRTSPSession = false

/-- The data values passed to `writeData` in a sequence of operations, in
order. -/
def writesOf : List StreamOp → List Nat
  | [] => []
  | StreamOp.writeData d :: rest => d :: writesOf rest
  | _ :: rest => writesOf rest

/-- The data values delivered to reader `r` so far, in delivery order. -/
def deliveredTo (r : reader) (s : StreamModel) : List Nat :=
  (s.log.filter (fun p => p.1 == r)).map Prod.snd

theorem readersAdd_nodup {m : List reader} (h : m.Nodup) (r : reader) :
    (readersAdd m r).Nodup := by
  unfold readersAdd
  split
  · exact h
  · next hmem => simpa using List.Nodup.append h (List.nodup_singleton r) (by simpa using hmem)

theorem mem_readersAdd {m : List reader} {x r : reader} :
    x ∈ readersAdd m r ↔ x ∈ m ∨ x = r := by
  unfold readersAdd
  split
  · next hmem =>
    constructor
    · exact fun h => Or.inl h
    · rintro (h | rfl)
      · exact h
      · exact hmem
  · simp

theorem mem_readersRemove {m : List reader} {x r : reader} :
    x ∈ readersRemove m r ↔ x ∈ m ∧ x ≠ r := by
  simp [readersRemove]

theorem applyOp_inv {s : StreamModel} (h : StreamInv s) (op : StreamOp) :
    StreamInv (applyOp s op) := by
  obtain ⟨hnd, hrtsp⟩ := h
  cases op with
  | readerAdd r =>
    simp only [applyOp, streamReaderAdd]
    split
    · exact ⟨hnd, hrtsp⟩
    · next hr =>
      refine ⟨readersAdd_nodup hnd r, ?_⟩
      intro x hx
      rcases mem_readersAdd.mp hx with hx | rfl
      · exact hrtsp x hx
      · simpa using hr
  | readerRemove r =>
    simp only [applyOp, streamReaderRemove]
    split
    · exact ⟨hnd, hrtsp⟩
    · refine ⟨?_, ?_⟩
      · exact List.Nodup.filter _ hnd
      · intro x hx
        exact hrtsp x (mem_readersRemove.mp hx).1
  | writeData d =>
    exact ⟨hnd, hrtsp⟩

theorem runOps_inv {s : StreamModel} (h : StreamInv s) (ops : List StreamOp) :
    StreamInv (runOps s ops) := by
  induction ops generalizing s with
  | nil => exact h
  | cons op rest ih => exact ih (applyOp_inv h op)

theorem initStream_inv : StreamInv initStream := by
  constructor
  · exact List.nodup_nil
  · intro r hr
    simp [initStream] at hr

theorem batch_delivered (m : List reader) (d : Nat) (r : reader) (h : m.Nodup) :
    ((m.map (fun x => (x, d))).filter (fun p => p.1 == r)).map Prod.snd
      = if r ∈ m then [d] else [] := by
  induction m with
  | nil => simp
  | cons x m ih =>
    rcases List.nodup_cons.mp h with ⟨hx, hm⟩
    by_cases hxr : x = r
    · subst hxr
      have hrm : (x ∈ m) = False := by simp [hx]
      simp [List.filter_cons, ih hm, hrm]
    · simp only [List.map_cons, List.filter_cons]
      have hbeq : ((x, d).1 == r) = false := by simpa using hxr
      have hrx : r ≠ x := fun hcontra => hxr hcontra.symm
      simp [hbeq, ih hm, hrx]

theorem batch_count (m : List reader) (d : Nat) (r : reader) (h : m.Nodup) :
    (m.map (fun x => (x, d))).count (r, d) = if r ∈ m then 1 else 0 := by
  induction m with
  | nil => simp
  | cons x m ih =>
    rcases List.nodup_cons.mp h with ⟨hx, hm⟩
    by_cases hxr : x = r
    · subst hxr
      have hrm : (x ∈ m) = False := by simp [hx]
      simp [List.count_cons, ih hm, hrm]
    · have hne : (x, d) ≠ (r, d) := by simp [hxr]
      have hrx : r ≠ x := fun hcontra => hxr hcontra.symm
      simp [List.count_cons, ih hm, hxr, hne, hrx]

theorem deliveredTo_writeData (s : StreamModel) (d : Nat) (r : reader)
    (h : s.nonRTSPReaders.Nodup) :
    deliveredTo r (streamWriteData s d)
      = deliveredTo r s ++ (if r ∈ s.nonRTSPReaders then [d] else []) := by
  simp only [deliveredTo, streamWriteData, List.filter_append, List.map_append]
  rw [batch_delivered s.nonRTSPReaders d r h]

theorem runOps_append (s : StreamModel) (l1 l2 : List StreamOp) :
    runOps s (l1 ++ l2) = runOps (runOps s l1) l2 := by
  induction l1 generalizing s with
  | nil => rfl
  | cons op rest ih => simp [runOps, ih]

theorem deliveredTo_runOps (r : reader) (ops : List StreamOp) :
    ∀ s : StreamModel, StreamInv s →
      ∃ l, deliveredTo r (runOps s ops) = deliveredTo r s ++ l ∧ l.Sublist (writesOf ops) := by
  induction ops with
  | nil =>
    intro s _
    exact ⟨[], by simp [runOps], List.nil_sublist _⟩
  | cons op rest ih =>
    intro s hs
    obtain ⟨l, hEq, hSub⟩ := ih (applyOp s op) (applyOp_inv hs op)
    cases op with
    | readerAdd r' =>
      refine ⟨l, ?_, hSub⟩
      have hlog : deliveredTo r (applyOp s (StreamOp.readerAdd r')) = deliveredTo r s := by
        simp only [applyOp, streamReaderAdd, deliveredTo]
        split <;> rfl
      rw [runOps, hEq, hlog]
    | readerRemove r' =>
      refine ⟨l, ?_, hSub⟩
      have hlog : deliveredTo r (applyOp s (StreamOp.readerRemove r')) = deliveredTo r s := by
        simp only [applyOp, streamReaderRemove, deliveredTo]
        split <;> rfl
      rw [runOps, hEq, hlog]
    | writeData d =>
      have hw : deliveredTo r (applyOp s (StreamOp.writeData d))
          = deliveredTo r s ++ (if r ∈ s.nonRTSPReaders then [d] else []) :=
        deliveredTo_writeData s d r hs.1
      refine ⟨(if r ∈ s.nonRTSPReaders then [d] else []) ++ l, ?_, ?_⟩
      · rw [runOps, hEq, hw, List.append_assoc]
      · by_cases hmem : r ∈ s.nonRTSPReaders
        · simpa [hmem, writesOf] using List.Sublist.cons₂ d hSub
        · simpa [hmem, writesOf] using List.Sublist.cons d hSub

theorem no_delivery_when_absent (r : reader) (post : List StreamOp)
    (hpost : ∀ op ∈ post, op ≠ StreamOp.readerAdd r) :
    ∀ s : StreamModel, StreamInv s → r ∉ s.nonRTSPReaders →
      deliveredTo r (runOps s post) = deliveredTo r s := by
  induction post with
  | nil => intro s _ _; rfl
  | cons op rest ih =>
    intro s hs habs
    have hrest : ∀ op ∈ rest, op ≠ StreamOp.readerAdd r := by
      intro o ho
      exact hpost o (List.mem_cons_of_mem _ ho)
    have hinv' := applyOp_inv hs op
    cases op with
    | readerAdd r' =>
      have hne : r' ≠ r := by
        intro hcontra
        exact (hpost _ (List.mem_cons_self _ _)) (by rw [hcontra])
      have habs' : r ∉ (applyOp s (StreamOp.readerAdd r')).nonRTSPReaders := by
        simp only [applyOp, streamReaderAdd]
        split
        · exact habs
        · intro hmem
          rcases mem_readersAdd.mp hmem with h | h
          · exact habs h
          · exact hne h.symm
      have hlog : deliveredTo r (applyOp s (StreamOp.readerAdd r')) = deliveredTo r s := by
        simp only [applyOp, streamReaderAdd, deliveredTo]
        split <;> rfl
      rw [runOps, ih hrest _ hinv' habs', hlog]
    | readerRemove r' =>
      have habs' : r ∉ (applyOp s (StreamOp.readerRemove r')).nonRTSPReaders := by
        simp only [applyOp, streamReaderRemove]
        split
        · exact habs
        · intro hmem
          exact habs (mem_readersRemove.mp hmem).1
      have hlog : deliveredTo r (applyOp s (StreamOp.readerRemove r')) = deliveredTo r s := by
        simp only [applyOp, streamReaderRemove, deliveredTo]
        split <;> rfl
      rw [runOps, ih hrest _ hinv' habs', hlog]
    | writeData d =>
      have habs' : r ∉ (applyOp s (StreamOp.writeData d)).nonRTSPReaders := habs
      have hlog : deliveredTo r (applyOp s (StreamOp.writeData d)) = deliveredTo r s := by
        have := deliveredTo_writeData s d r hs.1
        simp only [applyOp]
        simp [this, habs]
      rw [runOps, ih hrest _ hinv' habs', hlog]

theorem newStreamLoop_spec (tracks : List track) (g : Bool) :
    ((∃ e, newStreamLoop tracks g = Except.error e)
        ↔ (g = true ∧ ∃ t ∈ tracks, t.supportedByPacketizer = false))
  ∧ (∀ sts, newStreamLoop tracks g = Except.ok sts → sts.length = tracks.length) := by
  induction tracks with
  | nil => simp [newStreamLoop]
  | cons t rest ih =>
    cases hcond : (g && !t.supportedByPacketizer) with
    | true =>
      have hg : g = true := by
        cases g
        · simp at hcond
        · rfl
      have ht : t.supportedByPacketizer = false := by
        cases hh : t.supportedByPacketizer
        · rfl
        · rw [hg, hh] at hcond
          simp at hcond
      constructor
      · constructor
        · intro _
          exact ⟨hg, t, List.mem_cons_self _ _, ht⟩
        · intro _
          refine ⟨StreamTrackErr.unsupportedFormat, ?_⟩
          simp [newStreamLoop, newStreamTrack, hcond]
      · intro sts hok
        exfalso
        simp [newStreamLoop, newStreamTrack, hcond] at hok
    | false =>
      have hnotbad : ¬(g = true ∧ t.supportedByPacketizer = false) := by
        intro hb
        rw [hb.1, hb.2] at hcond
        simp at hcond
      have hstep : newStreamLoop (t :: rest) g
          = match newStreamLoop rest g with
            | Except.error e => Except.error e
            | Except.ok sts => Except.ok ({ source := t } :: sts) := by
        simp [newStreamLoop, newStreamTrack, hcond]
      cases hrest : newStreamLoop rest g with
      | error e =>
        rw [hrest] at hstep
        constructor
        · constructor
          · intro _
            obtain ⟨hg, tt, htt, hts⟩ := (ih.1).mp ⟨e, hrest⟩
            exact ⟨hg, tt, List.mem_cons_of_mem _ htt, hts⟩
          · intro _
            exact ⟨e, hstep⟩
        · intro sts hok
          rw [hstep] at hok
          exact Except.noConfusion hok
      | ok sts =>
        rw [hrest] at hstep
        constructor
        · constructor
          · rintro ⟨e, he⟩
            rw [hstep] at he
            exact Except.noConfusion he
          · rintro ⟨hg, tt, htt, hts⟩
            exfalso
            rcases List.mem_cons.mp htt with rfl | htt'
            · exact hnotbad ⟨hg, hts⟩
            · obtain ⟨e, he⟩ := (ih.1).mpr ⟨hg, tt, htt', hts⟩
              rw [he] at hrest
              exact Except.noConfusion hrest
        · intro sts' hok
          rw [hstep] at hok
          have hs : { source := t } :: sts = sts' := by
            injection hok
          rw [← hs]
          simp [ih.2 sts hrest]

/-- C2: each `writeData` call invokes `onReaderData` exactly once on every
non-RTSP reader currently in the subscriber set; units are delivered to each
subscribed reader in write order; and a reader whose `readerRemove` has
completed is never invoked by any later `writeData` (unless re-added). -/
theorem C2_fanout_delivery :
    (∀ (s : StreamModel) (d : Nat) (r : reader), StreamInv s →
       ((streamWriteData s d).log.drop s.log.length).count (r, d)
         = if r ∈ s.nonRTSPReaders then 1 else 0)
  ∧ (∀ (ops : List StreamOp) (r : reader),
       (deliveredTo r (runOps initStream ops)).Sublist (writesOf ops))
  ∧ (∀ (pre post : List StreamOp) (r : reader),
       (∀ op ∈ post, op ≠ StreamOp.readerAdd r) →
       deliveredTo r (runOps initStream (pre ++ StreamOp.readerRemove r :: post))
         = deliveredTo r (runOps initStream (pre ++ [StreamOp.readerRemove r]))) := by
  refine ⟨?_, ?_, ?_⟩
  · intro s d r hs
    have hdrop : (streamWriteData s d).log.drop s.log.length
        = s.nonRTSPReaders.map (fun r => (r, d)) := by
      simp [streamWriteData]
    rw [hdrop]
    exact batch_count s.nonRTSPReaders d r hs.1
  · intro ops r
    obtain ⟨l, hEq, hSub⟩ := deliveredTo_runOps r ops initStream initStream_inv
    have hinit : deliveredTo r initStream = [] := rfl
    rw [hinit] at hEq
    simpa [hEq] using hSub
  · intro pre post r hpost
    have hsplit : pre ++ StreamOp.readerRemove r :: post
        = (pre ++ [StreamOp.readerRemove r]) ++ post := by
      simp
    rw [hsplit, runOps_append]
    have hinv1 : StreamInv (runOps initStream (pre ++ [StreamOp.readerRemove r])) :=
      runOps_inv initStream_inv _
    have habs : r ∉ (runOps initStream (pre ++ [StreamOp.readerRemove r])).nonRTSPReaders := by
      rw [runOps_append]
      have hinv0 : StreamInv (runOps initStream pre) := runOps_inv initStream_inv _
      simp only [runOps, applyOp, streamReaderRemove]
      split
      · next hrtsp =>
        intro hmem
        have := hinv0.2 r hmem
        rw [this] at hrtsp
        exact Bool.false_ne_true hrtsp
      · intro hmem
        exact (mem_readersRemove.mp hmem).2 rfl
    exact no_delivery_when_absent r post hpost _ hinv1 habs

theorem C2_fanout_delivery_witness :
    ((streamWriteData ⟨[⟨1, false⟩], []⟩ 7).log.drop 0).count (⟨1, false⟩, 7) = 1
  ∧ (deliveredTo ⟨1, false⟩
       (runOps initStream [StreamOp.readerAdd ⟨1, false⟩, StreamOp.writeData 5])).Sublist
       (writesOf [StreamOp.readerAdd ⟨1, false⟩, StreamOp.writeData 5])
  ∧ deliveredTo ⟨1, false⟩
       (runOps initStream
         ([StreamOp.readerAdd ⟨1, false⟩] ++ StreamOp.readerRemove ⟨1, false⟩ :: [StreamOp.writeData 5]))
     = deliveredTo ⟨1, false⟩
       (runOps initStream ([StreamOp.readerAdd ⟨1, false⟩] ++ [StreamOp.readerRemove ⟨1, false⟩])) := by
  refine ⟨?_, ?_, ?_⟩
  · have h := C2_fanout_delivery.1 ⟨[⟨1, false⟩], []⟩ 7 ⟨1, false⟩ ⟨by decide, by decide⟩
    simpa using h
  · exact C2_fanout_delivery.2.1 _ _
  · exact C2_fanout_delivery.2.2 [StreamOp.readerAdd ⟨1, false⟩] [StreamOp.writeData 5]
      ⟨1, false⟩ (by decide)

/-- C4 counterexample: `newStream` applied to an empty description does not
return an error; it returns a stream with no tracks.  The claim's clause
"returns an error if the supplied description is empty" is false of the code:
the construction loop simply runs zero times. -/
theorem C4_counterexample :
    newStream [] true = Except.ok { streamTracks := [] } := rfl

/-- C4 (amended): `newStream` returns an error iff `generateRTPPackets` is
true and some track's format is unsupported by the RTP packetizer; otherwise
it returns a stream with one `streamTrack` per track of the description (in
particular, an empty description yields a stream with zero tracks, not an
error). -/
theorem C4_amended_newStream (tracks : List track) (g : Bool) :
    ((∃ e, newStream tracks g = Except.error e)
        ↔ (g = true ∧ ∃ t ∈ tracks, t.supportedByPacketizer = false))
  ∧ (∀ s, newStream tracks g = Except.ok s → s.streamTracks.length = tracks.length) := by
  have h := newStreamLoop_spec tracks g
  constructor
  · constructor
    · rintro ⟨e, he⟩
      apply h.1.mp
      unfold newStream at he
      cases hl : newStreamLoop tracks g with
      | error e' => exact ⟨e', rfl⟩
      | ok sts =>
        rw [hl] at he
        exact Except.noConfusion he
    · intro hb
      obtain ⟨e, hl⟩ := h.1.mpr hb
      exact ⟨e, by unfold newStream; rw [hl]⟩
  · intro s hok
    unfold newStream at hok
    cases hl : newStreamLoop tracks g with
    | error e =>
      rw [hl] at hok
      exact Except.noConfusion hok
    | ok sts =>
      rw [hl] at hok
      have hs : { streamTracks := sts } = s := by
        injection hok
      rw [← hs]
      exact h.2 sts hl

theorem C4_amended_newStream_witness :
    ({ streamTracks := [{ source := ⟨true⟩ }] } : builtStream).streamTracks.length
      = [(⟨true⟩ : track)].length :=
  (C4_amended_newStream [⟨true⟩] true).2 _ rfl

/-- C9: with an empty configured passphrase, `srtCheckPassphrase` accepts
every connection request without any encryption check; with a non-empty
passphrase it errors iff the connection is not encrypted or setting the
passphrase on the connection fails. -/
theorem C9_check_passphrase (c : ConnRequest) (p : String) :
    (p = "" → srtCheckPassphrase c p = none)
  ∧ (p ≠ "" → ((srtCheckPassphrase c p).isSome
        ↔ (c.encrypted = false ∨ c.passphraseAccepted = false))) := by
  constructor
  · intro hp
    simp [srtCheckPassphrase, hp]
  · intro hp
    rcases c with ⟨enc, acc⟩
    cases enc <;> cases acc <;> simp [srtCheckPassphrase, hp]

theorem C9_check_passphrase_witness :
    srtCheckPassphrase ⟨true, true⟩ ("") = none
  ∧ ((srtCheckPassphrase ⟨false, true⟩ ("k")).isSome
        ↔ ((⟨false, true⟩ : ConnRequest).encrypted = false
            ∨ (⟨false, true⟩ : ConnRequest).passphraseAccepted = false)) :=
  ⟨(C9_check_passphrase ⟨true, true⟩ ("")).1 rfl,
   (C9_check_passphrase ⟨false, true⟩ ("k")).2 (by decide)⟩

/-! ### SRT session lifecycle (`conn.runPublish`, `conn.runRead`,
`conn.runPublishReader`)

The session's control flow is embedded as a function from an environment of
operation outcomes to the trace of observable events, with each Go `defer`
modelled by appending the deferred events on every exit path of the function
body, in LIFO order. -/

/-- Observable events of an SRT session run.  Path-manager calls carry the
path they act on. -/
inductive SrtEvent where
  | addPublisherCall (path : Nat)
  | removePublisher (path : Nat)
  | addReaderCall (path : Nat)
  | removeReader (path : Nat)
  | sleepMs (ms : Nat)
  | checkPassphrase
  | exchangeRequest
  | setReadDeadline
  | newMpegtsReader
  | toStream
  | startPublisher
  | writeUnit (i : Nat)
  | readCall
  | fromStream
  | logReading
  | writerStart
  | writerStop
  | onUnread
  | streamRemoveReader
  | sconnClose
  | ctxCancelEv
  | closeConnEv
deriving DecidableEq, Repr

/-- Outcome of a path-manager admission call (`AddPublisher`/`AddReader`):
success, an `AuthenticationError`, or any other error. -/
inductive AdmissionResult where
  | ok
  | authError
  | otherError
deriving DecidableEq, Repr

/-- The fixed penalty after an authentication error, in milliseconds
(`pauseAfterAuthError = 2 * time.Second`). -/
def pauseAfterAuthError : Nat := 2000

/-- Outcomes of the fallible steps inside `runPublishReader`, plus the number
of successful `Read` iterations before the read that fails. -/
structure ReaderEnv where
  newReaderOk : Bool
  toStreamOk : Bool
  startPublisherOk : Bool
  reads : Nat
deriving DecidableEq, Repr

/-- The events of the publish read loop: each successful `Read` call delivers
the units of one MPEG-TS chunk to the stream (collapsed to one `writeUnit`
per read), and the loop ends with the read that returns an error. -/
def readEventsFrom (i : Nat) : Nat → List SrtEvent
  | 0 => [SrtEvent.readCall]
  | Nat.succ k => SrtEvent.readCall :: SrtEvent.writeUnit i :: readEventsFrom (i + 1) k

/-- Embedding of `conn.runPublishReader`.  The internals of `mpegts.ToStream`
are not under src/; modelled from the spec: it derives the media description
from the ingested stream and installs callbacks, and no unit is written
through it while the target stream pointer is still unset (the stream is
installed only by the `StartPublisher` call that follows). -/
def runPublishReader (env : ReaderEnv) : List SrtEvent :=
  if env.newReaderOk = false then
    [SrtEvent.setReadDeadline, SrtEvent.newMpegtsReader]
  else if env.toStreamOk = false then
    [SrtEvent.setReadDeadline, SrtEvent.newMpegtsReader, SrtEvent.toStream]
  else if env.startPublisherOk = false then
    [SrtEvent.setReadDeadline, SrtEvent.newMpegtsReader, SrtEvent.toStream,
     SrtEvent.startPublisher]
  else
    SrtEvent.setReadDeadline :: SrtEvent.newMpegtsReader :: SrtEvent.toStream ::
      SrtEvent.startPublisher :: readEventsFrom 0 env.reads

/-- Which arm of the final `select` of `runPublish` fires. -/
inductive PublishEndCause where
  | readerDone
  | ctxDone
deriving DecidableEq, Repr

/-- Errors a session run can return. -/
inductive SrtErr where
  | auth
  | other
  | passphrase
  | terminated
  | readerErr
  | streamIdErr
deriving DecidableEq, Repr

/-- Environment of one `runPublish` execution. -/
structure PublishEnv where
  pathName : Nat
  admission : AdmissionResult
  passphraseOk : Bool
  exchangeOk : Bool
  readerEnv : ReaderEnv
  endCause : PublishEndCause
deriving DecidableEq, Repr

/-- The body of `runPublish` after a successful `AddPublisher`, without the
deferred `RemovePublisher` (which the caller appends on every exit). -/
def runPublishAdmitted (env : PublishEnv) : List SrtEvent × Bool × SrtErr :=
  if env.passphraseOk = false then
    ([SrtEvent.checkPassphrase], false, SrtErr.passphrase)
  else if env.exchangeOk = false then
    ([SrtEvent.checkPassphrase, SrtEvent.exchangeRequest], true, SrtErr.terminated)
  else
    match env.endCause with
    | PublishEndCause.readerDone =>
        (SrtEvent.checkPassphrase :: SrtEvent.exchangeRequest ::
           (runPublishReader env.readerEnv ++ [SrtEvent.sconnClose]), true, SrtErr.readerErr)
    | PublishEndCause.ctxDone =>
        (SrtEvent.checkPassphrase :: SrtEvent.exchangeRequest ::
           SrtEvent.sconnClose :: runPublishReader env.readerEnv, true, SrtErr.terminated)

/-- Embedding of `conn.runPublish`: on an `AuthenticationError` the session
sleeps `pauseAfterAuthError` and returns the error; on any other admission
error it returns at once; on success, `defer path.RemovePublisher` guarantees
a `removePublisher` on the same path at every exit of the remaining body. -/
def runPublish (env : PublishEnv) : List SrtEvent × Bool × SrtErr :=
  match env.admission with
  | AdmissionResult.authError =>
      ([SrtEvent.addPublisherCall env.pathName, SrtEvent.sleepMs pauseAfterAuthError],
       false, SrtErr.auth)
  | AdmissionResult.otherError =>
      ([SrtEvent.addPublisherCall env.pathName], false, SrtErr.other)
  | AdmissionResult.ok =>
      let r := runPublishAdmitted env
      (SrtEvent.addPublisherCall env.pathName ::
         (r.1 ++ [SrtEvent.removePublisher env.pathName]), r.2.1, r.2.2)

/-- Which arm of the final `select` of `runRead` fires. -/
inductive ReadEndCause where
  | ctxDone
  | writerError
deriving DecidableEq, Repr

/-- Environment of one `runRead` execution. -/
structure ReadEnv where
  pathName : Nat
  admission : AdmissionResult
  passphraseOk : Bool
  exchangeOk : Bool
  fromStreamOk : Bool
  endCause : ReadEndCause
deriving DecidableEq, Repr

/-- The body of `runRead` after a successful `AddReader`, without the
deferred `path.RemoveReader`.  The later defers (`sconn.Close`,
`stream.RemoveReader(writer)`, `onUnreadHook`) are appended in LIFO order on
the exit paths after their registration points. -/
def runReadAdmitted (env : ReadEnv) : List SrtEvent × Bool × SrtErr :=
  if env.passphraseOk = false then
    ([SrtEvent.checkPassphrase], false, SrtErr.passphrase)
  else if env.exchangeOk = false then
    ([SrtEvent.checkPassphrase, SrtEvent.exchangeRequest], true, SrtErr.terminated)
  else if env.fromStreamOk = false then
    ([SrtEvent.checkPassphrase, SrtEvent.exchangeRequest, SrtEvent.fromStream,
      SrtEvent.streamRemoveReader, SrtEvent.sconnClose], true, SrtErr.readerErr)
  else
    match env.endCause with
    | ReadEndCause.ctxDone =>
        ([SrtEvent.checkPassphrase, SrtEvent.exchangeRequest, SrtEvent.fromStream,
          SrtEvent.logReading, SrtEvent.writerStart, SrtEvent.writerStop,
          SrtEvent.onUnread, SrtEvent.streamRemoveReader, SrtEvent.sconnClose],
         true, SrtErr.terminated)
    | ReadEndCause.writerError =>
        ([SrtEvent.checkPassphrase, SrtEvent.exchangeRequest, SrtEvent.fromStream,
          SrtEvent.logReading, SrtEvent.writerStart,
          SrtEvent.onUnread, SrtEvent.streamRemoveReader, SrtEvent.sconnClose],
         true, SrtErr.readerErr)

/-- Embedding of `conn.runRead`. -/
def runRead (env : ReadEnv) : List SrtEvent × Bool × SrtErr :=
  match env.admission with
  | AdmissionResult.authError =>
      ([SrtEvent.addReaderCall env.pathName, SrtEvent.sleepMs pauseAfterAuthError],
       false, SrtErr.auth)
  | AdmissionResult.otherError =>
      ([SrtEvent.addReaderCall env.pathName], false, SrtErr.other)
  | AdmissionResult.ok =>
      let r := runReadAdmitted env
      (SrtEvent.addReaderCall env.pathName ::
         (r.1 ++ [SrtEvent.removeReader env.pathName]), r.2.1, r.2.2)

/-- Environment of a whole connection run (`conn.run`/`runInner`/`runInner2`):
whether a new-connection request arrives before cancellation, whether the
stream ID parses, and the publish-or-read mode with its environment. -/
structure ConnEnv where
  gotRequest : Bool
  streamIdOk : Bool
  isPublish : Bool
  penv : PublishEnv
  renv : ReadEnv
deriving DecidableEq, Repr

/-- Embedding of `conn.runInner2`: parse the stream ID, then dispatch on its
mode. -/
def runInner2 (env : ConnEnv) : List SrtEvent × Bool × SrtErr :=
  if env.streamIdOk = false then ([], false, SrtErr.streamIdErr)
  else if env.isPublish then runPublish env.penv
  else runRead env.renv

/-- Embedding of `conn.runInner`: wait for the new-connection request or
cancellation, then run `runInner2`. -/
def runInnerConn (env : ConnEnv) : List SrtEvent × SrtErr :=
  if env.gotRequest = false then ([], SrtErr.terminated)
  else ((runInner2 env).1, (runInner2 env).2.2)

/-- Embedding of `conn.run`: one `runInner`, then context cancel and
`closeConn` before returning. -/
def connRun (env : ConnEnv) : List SrtEvent :=
  (runInnerConn env).1 ++ [SrtEvent.ctxCancelEv, SrtEvent.closeConnEv]

theorem mem_readEventsFrom {e : SrtEvent} (i n : Nat) (h : e ∈ readEventsFrom i n) :
    e = SrtEvent.readCall ∨ ∃ u, e = SrtEvent.writeUnit u := by
  induction n generalizing i with
  | zero =>
    simp [readEventsFrom] at h
    exact Or.inl h
  | succ k ih =>
    simp only [readEventsFrom, List.mem_cons] at h
    rcases h with rfl | rfl | h
    · exact Or.inl rfl
    · exact Or.inr ⟨i, rfl⟩
    · exact ih (i + 1) h

theorem not_mem_runPublishReader (e : SrtEvent)
    (h1 : e ≠ SrtEvent.setReadDeadline) (h2 : e ≠ SrtEvent.newMpegtsReader)
    (h3 : e ≠ SrtEvent.toStream) (h4 : e ≠ SrtEvent.startPublisher)
    (h5 : e ≠ SrtEvent.readCall) (h6 : ∀ u, e ≠ SrtEvent.writeUnit u)
    (env : ReaderEnv) : e ∉ runPublishReader env := by
  intro hmem
  unfold runPublishReader at hmem
  split at hmem
  · simp [h1, h2] at hmem
  · split at hmem
    · simp [h1, h2, h3] at hmem
    · split at hmem
      · simp [h1, h2, h3, h4] at hmem
      · simp only [List.mem_cons] at hmem
        rcases hmem with rfl | rfl | rfl | rfl | hmem
        · exact h1 rfl
        · exact h2 rfl
        · exact h3 rfl
        · exact h4 rfl
        · rcases mem_readEventsFrom 0 env.reads hmem with rfl | ⟨u, rfl⟩
          · exact h5 rfl
          · exact h6 u rfl

theorem runPublishAdmitted_count_zero (env : PublishEnv) (e : SrtEvent)
    (hc : e ≠ SrtEvent.checkPassphrase) (hx : e ≠ SrtEvent.exchangeRequest)
    (hs : e ≠ SrtEvent.sconnClose)
    (h1 : e ≠ SrtEvent.setReadDeadline) (h2 : e ≠ SrtEvent.newMpegtsReader)
    (h3 : e ≠ SrtEvent.toStream) (h4 : e ≠ SrtEvent.startPublisher)
    (h5 : e ≠ SrtEvent.readCall) (h6 : ∀ u, e ≠ SrtEvent.writeUnit u) :
    (runPublishAdmitted env).1.count e = 0 := by
  have hrd : (runPublishReader env.readerEnv).count e = 0 :=
    List.count_eq_zero.mpr (not_mem_runPublishReader e h1 h2 h3 h4 h5 h6 env.readerEnv)
  unfold runPublishAdmitted
  split
  · simp [List.count_cons, hc]
  · split
    · simp [List.count_cons, hc, hx]
    · split
      · simp [List.count_cons, List.count_append, hc, hx, hs, hrd]
      · simp [List.count_cons, List.count_append, hc, hx, hs, hrd]

theorem runReadAdmitted_count_zero (env : ReadEnv) (e : SrtEvent)
    (hc : e ≠ SrtEvent.checkPassphrase) (hx : e ≠ SrtEvent.exchangeRequest)
    (hf : e ≠ SrtEvent.fromStream) (hl : e ≠ SrtEvent.logReading)
    (hw : e ≠ SrtEvent.writerStart) (hw2 : e ≠ SrtEvent.writerStop)
    (hu : e ≠ SrtEvent.onUnread) (hsr : e ≠ SrtEvent.streamRemoveReader)
    (hs : e ≠ SrtEvent.sconnClose) :
    (runReadAdmitted env).1.count e = 0 := by
  unfold runReadAdmitted
  split
  · simp [List.count_cons, hc]
  · split
    · simp [List.count_cons, hc, hx]
    · split
      · simp [List.count_cons, hc, hx, hf, hsr, hs]
      · split
        · simp [List.count_cons, hc, hx, hf, hl, hw, hw2, hu, hsr, hs]
        · simp [List.count_cons, hc, hx, hf, hl, hw, hu, hsr, hs]

theorem runPublish_count_removePublisher (env : PublishEnv) :
    (runPublish env).1.count (SrtEvent.removePublisher env.pathName)
      = if env.admission = AdmissionResult.ok then 1 else 0 := by
  have h0 := runPublishAdmitted_count_zero env (SrtEvent.removePublisher env.pathName)
    (by simp) (by simp) (by simp) (by simp) (by simp) (by simp) (by simp) (by simp)
    (by simp)
  cases hadm : env.admission with
  | authError => simp [runPublish, hadm, List.count_cons]
  | otherError => simp [runPublish, hadm, List.count_cons]
  | ok => simp [runPublish, hadm, List.count_cons, List.count_append, h0]

theorem runPublish_count_other (env : PublishEnv) (e : SrtEvent)
    (ha : ∀ p, e ≠ SrtEvent.addPublisherCall p) (hr : ∀ p, e ≠ SrtEvent.removePublisher p)
    (hsl : ∀ ms, e ≠ SrtEvent.sleepMs ms)
    (hc : e ≠ SrtEvent.checkPassphrase) (hx : e ≠ SrtEvent.exchangeRequest)
    (hs : e ≠ SrtEvent.sconnClose)
    (h1 : e ≠ SrtEvent.setReadDeadline) (h2 : e ≠ SrtEvent.newMpegtsReader)
    (h3 : e ≠ SrtEvent.toStream) (h4 : e ≠ SrtEvent.startPublisher)
    (h5 : e ≠ SrtEvent.readCall) (h6 : ∀ u, e ≠ SrtEvent.writeUnit u) :
    (runPublish env).1.count e = 0 := by
  have h0 := runPublishAdmitted_count_zero env e hc hx hs h1 h2 h3 h4 h5 h6
  cases hadm : env.admission with
  | authError => simp [runPublish, hadm, List.count_cons, ha env.pathName, hsl pauseAfterAuthError]
  | otherError => simp [runPublish, hadm, List.count_cons, ha env.pathName]
  | ok =>
    simp [runPublish, hadm, List.count_cons, List.count_append, h0, ha env.pathName,
      hr env.pathName]

theorem runRead_count_removeReader (env : ReadEnv) :
    (runRead env).1.count (SrtEvent.removeReader env.pathName)
      = if env.admission = AdmissionResult.ok then 1 else 0 := by
  have h0 := runReadAdmitted_count_zero env (SrtEvent.removeReader env.pathName)
    (by simp) (by simp) (by simp) (by simp) (by simp) (by simp) (by simp) (by simp)
    (by simp)
  cases hadm : env.admission with
  | authError => simp [runRead, hadm, List.count_cons]
  | otherError => simp [runRead, hadm, List.count_cons]
  | ok => simp [runRead, hadm, List.count_cons, List.count_append, h0]

theorem runRead_count_other (env : ReadEnv) (e : SrtEvent)
    (ha : ∀ p, e ≠ SrtEvent.addReaderCall p) (hr : ∀ p, e ≠ SrtEvent.removeReader p)
    (hsl : ∀ ms, e ≠ SrtEvent.sleepMs ms)
    (hc : e ≠ SrtEvent.checkPassphrase) (hx : e ≠ SrtEvent.exchangeRequest)
    (hf : e ≠ SrtEvent.fromStream) (hl : e ≠ SrtEvent.logReading)
    (hw : e ≠ SrtEvent.writerStart) (hw2 : e ≠ SrtEvent.writerStop)
    (hu : e ≠ SrtEvent.onUnread) (hsr : e ≠ SrtEvent.streamRemoveReader)
    (hs : e ≠ SrtEvent.sconnClose) :
    (runRead env).1.count e = 0 := by
  have h0 := runReadAdmitted_count_zero env e hc hx hf hl hw hw2 hu hsr hs
  cases hadm : env.admission with
  | authError => simp [runRead, hadm, List.count_cons, ha env.pathName, hsl pauseAfterAuthError]
  | otherError => simp [runRead, hadm, List.count_cons, ha env.pathName]
  | ok =>
    simp [runRead, hadm, List.count_cons, List.count_append, h0, ha env.pathName,
      hr env.pathName]

theorem runPublish_getLast (env : PublishEnv) (h : env.admission = AdmissionResult.ok) :
    (runPublish env).1.getLast? = some (SrtEvent.removePublisher env.pathName) := by
  simp only [runPublish, h]
  rw [show SrtEvent.addPublisherCall env.pathName ::
      ((runPublishAdmitted env).1 ++ [SrtEvent.removePublisher env.pathName])
    = (SrtEvent.addPublisherCall env.pathName :: (runPublishAdmitted env).1)
        ++ [SrtEvent.removePublisher env.pathName] from rfl]
  exact List.getLast?_concat _

theorem runRead_getLast (env : ReadEnv) (h : env.admission = AdmissionResult.ok) :
    (runRead env).1.getLast? = some (SrtEvent.removeReader env.pathName) := by
  simp only [runRead, h]
  rw [show SrtEvent.addReaderCall env.pathName ::
      ((runReadAdmitted env).1 ++ [SrtEvent.removeReader env.pathName])
    = (SrtEvent.addReaderCall env.pathName :: (runReadAdmitted env).1)
        ++ [SrtEvent.removeReader env.pathName] from rfl]
  exact List.getLast?_concat _

theorem runPublish_count_add (env : PublishEnv) :
    (runPublish env).1.count (SrtEvent.addPublisherCall env.pathName) = 1 := by
  have h0 := runPublishAdmitted_count_zero env (SrtEvent.addPublisherCall env.pathName)
    (by simp) (by simp) (by simp) (by simp) (by simp) (by simp) (by simp) (by simp)
    (by simp)
  cases hadm : env.admission with
  | authError => simp [runPublish, hadm, List.count_cons]
  | otherError => simp [runPublish, hadm, List.count_cons]
  | ok => simp [runPublish, hadm, List.count_cons, List.count_append, h0]

theorem runRead_count_add (env : ReadEnv) :
    (runRead env).1.count (SrtEvent.addReaderCall env.pathName) = 1 := by
  have h0 := runReadAdmitted_count_zero env (SrtEvent.addReaderCall env.pathName)
    (by simp) (by simp) (by simp) (by simp) (by simp) (by simp) (by simp) (by simp)
    (by simp)
  cases hadm : env.admission with
  | authError => simp [runRead, hadm, List.count_cons]
  | otherError => simp [runRead, hadm, List.count_cons]
  | ok => simp [runRead, hadm, List.count_cons, List.count_append, h0]

/-- C1: a session that successfully completes `AddPublisher` (resp.
`AddReader`) on a path performs exactly one matching `RemovePublisher`
(resp. `RemoveReader`) on that path, on every exit path — the deferred call
is the last event of the publish/read function — and a session whose
admission did not succeed performs none. -/
theorem C1_matching_remove (cenv : ConnEnv) :
    ((cenv.gotRequest = true ∧ cenv.streamIdOk = true ∧ cenv.isPublish = true ∧
        cenv.penv.admission = AdmissionResult.ok) →
      (connRun cenv).count (SrtEvent.removePublisher cenv.penv.pathName) = 1
      ∧ (runPublish cenv.penv).1.getLast?
          = some (SrtEvent.removePublisher cenv.penv.pathName))
  ∧ (cenv.penv.admission ≠ AdmissionResult.ok →
      (connRun cenv).count (SrtEvent.removePublisher cenv.penv.pathName) = 0)
  ∧ ((cenv.gotRequest = true ∧ cenv.streamIdOk = true ∧ cenv.isPublish = false ∧
        cenv.renv.admission = AdmissionResult.ok) →
      (connRun cenv).count (SrtEvent.removeReader cenv.renv.pathName) = 1
      ∧ (runRead cenv.renv).1.getLast?
          = some (SrtEvent.removeReader cenv.renv.pathName))
  ∧ (cenv.renv.admission ≠ AdmissionResult.ok →
      (connRun cenv).count (SrtEvent.removeReader cenv.renv.pathName) = 0) := by
  refine ⟨?_, ?_, ?_, ?_⟩
  · rintro ⟨hg, hsid, hpub, hadm⟩
    have hcp := runPublish_count_removePublisher cenv.penv
    rw [hadm] at hcp
    simp at hcp
    refine ⟨?_, runPublish_getLast cenv.penv hadm⟩
    simp [connRun, runInnerConn, runInner2, hg, hsid, hpub, List.count_append,
      List.count_cons, hcp]
  · intro hne
    cases hg : cenv.gotRequest with
    | false => simp [connRun, runInnerConn, hg, List.count_cons]
    | true =>
      cases hsid : cenv.streamIdOk with
      | false => simp [connRun, runInnerConn, runInner2, hg, hsid, List.count_cons]
      | true =>
        cases hpub : cenv.isPublish with
        | true =>
          have hcp := runPublish_count_removePublisher cenv.penv
          simp [connRun, runInnerConn, runInner2, hg, hsid, hpub, List.count_append,
            List.count_cons, hcp, hne]
        | false =>
          have hcr := runRead_count_other cenv.renv
            (SrtEvent.removePublisher cenv.penv.pathName)
            (by simp) (by simp) (by simp) (by simp) (by simp) (by simp) (by simp)
            (by simp) (by simp) (by simp) (by simp) (by simp)
          simp [connRun, runInnerConn, runInner2, hg, hsid, hpub, List.count_append,
            List.count_cons, hcr]
  · rintro ⟨hg, hsid, hpub, hadm⟩
    have hcr := runRead_count_removeReader cenv.renv
    rw [hadm] at hcr
    simp at hcr
    refine ⟨?_, runRead_getLast cenv.renv hadm⟩
    simp [connRun, runInnerConn, runInner2, hg, hsid, hpub, List.count_append,
      List.count_cons, hcr]
  · intro hne
    cases hg : cenv.gotRequest with
    | false => simp [connRun, runInnerConn, hg, List.count_cons]
    | true =>
      cases hsid : cenv.streamIdOk with
      | false => simp [connRun, runInnerConn, runInner2, hg, hsid, List.count_cons]
      | true =>
        cases hpub : cenv.isPublish with
        | false =>
          have hcr := runRead_count_removeReader cenv.renv
          simp [connRun, runInnerConn, runInner2, hg, hsid, hpub, List.count_append,
            List.count_cons, hcr, hne]
        | true =>
          have hcp := runPublish_count_other cenv.penv
            (SrtEvent.removeReader cenv.renv.pathName)
            (by simp) (by simp) (by simp) (by simp) (by simp) (by simp) (by simp)
            (by simp) (by simp) (by simp) (by simp) (by simp)
          simp [connRun, runInnerConn, runInner2, hg, hsid, hpub, List.count_append,
            List.count_cons, hcp]

theorem C1_matching_remove_witness :
    (connRun ⟨true, true, true,
        ⟨4, AdmissionResult.ok, true, true, ⟨true, true, true, 1⟩, PublishEndCause.readerDone⟩,
        ⟨5, AdmissionResult.ok, true, true, true, ReadEndCause.ctxDone⟩⟩).count
        (SrtEvent.removePublisher 4) = 1
  ∧ (runPublish
        ⟨4, AdmissionResult.ok, true, true, ⟨true, true, true, 1⟩,
          PublishEndCause.readerDone⟩).1.getLast?
      = some (SrtEvent.removePublisher 4) :=
  (C1_matching_remove ⟨true, true, true,
      ⟨4, AdmissionResult.ok, true, true, ⟨true, true, true, 1⟩, PublishEndCause.readerDone⟩,
      ⟨5, AdmissionResult.ok, true, true, true, ReadEndCause.ctxDone⟩⟩).1
    ⟨rfl, rfl, rfl, rfl⟩

/-- C3: on an `AuthenticationError` from admission, the session emits the
fixed 2-second penalty sleep as its final action before returning the error
(`pauseAfterAuthError = 2000` ms), for both publish and read, and a session
run performs at most one admission request — the request is never retried. -/
theorem C3_auth_penalty (penv : PublishEnv) (renv : ReadEnv) (cenv : ConnEnv)
    (hp : penv.admission = AdmissionResult.authError)
    (hr : renv.admission = AdmissionResult.authError) :
    (runPublish penv).1
        = [SrtEvent.addPublisherCall penv.pathName, SrtEvent.sleepMs pauseAfterAuthError]
  ∧ (runPublish penv).2.2 = SrtErr.auth
  ∧ (runRead renv).1
        = [SrtEvent.addReaderCall renv.pathName, SrtEvent.sleepMs pauseAfterAuthError]
  ∧ (runRead renv).2.2 = SrtErr.auth
  ∧ pauseAfterAuthError = 2000
  ∧ (connRun cenv).count (SrtEvent.addPublisherCall cenv.penv.pathName) ≤ 1
  ∧ (connRun cenv).count (SrtEvent.addReaderCall cenv.renv.pathName) ≤ 1 := by
  refine ⟨by simp [runPublish, hp], by simp [runPublish, hp],
    by simp [runRead, hr], by simp [runRead, hr], rfl, ?_, ?_⟩
  · cases hg : cenv.gotRequest with
    | false => simp [connRun, runInnerConn, hg, List.count_cons]
    | true =>
      cases hsid : cenv.streamIdOk with
      | false => simp [connRun, runInnerConn, runInner2, hg, hsid, List.count_cons]
      | true =>
        cases hpub : cenv.isPublish with
        | true =>
          have h1 := runPublish_count_add cenv.penv
          simp [connRun, runInnerConn, runInner2, hg, hsid, hpub, List.count_append,
            List.count_cons, h1]
        | false =>
          have h1 := runRead_count_other cenv.renv
            (SrtEvent.addPublisherCall cenv.penv.pathName)
            (by simp) (by simp) (by simp) (by simp) (by simp) (by simp) (by simp)
            (by simp) (by simp) (by simp) (by simp) (by simp)
          simp [connRun, runInnerConn, runInner2, hg, hsid, hpub, List.count_append,
            List.count_cons, h1]
  · cases hg : cenv.gotRequest with
    | false => simp [connRun, runInnerConn, hg, List.count_cons]
    | true =>
      cases hsid : cenv.streamIdOk with
      | false => simp [connRun, runInnerConn, runInner2, hg, hsid, List.count_cons]
      | true =>
        cases hpub : cenv.isPublish with
        | false =>
          have h1 := runRead_count_add cenv.renv
          simp [connRun, runInnerConn, runInner2, hg, hsid, hpub, List.count_append,
            List.count_cons, h1]
        | true =>
          have h1 := runPublish_count_other cenv.penv
            (SrtEvent.addReaderCall cenv.renv.pathName)
            (by simp) (by simp) (by simp) (by simp) (by simp) (by simp) (by simp)
            (by simp) (by simp) (by simp) (by simp) (by simp)
          simp [connRun, runInnerConn, runInner2, hg, hsid, hpub, List.count_append,
            List.count_cons, h1]

theorem C3_auth_penalty_witness :
    (runPublish ⟨7, AdmissionResult.authError, true, true, ⟨true, true, true, 0⟩,
        PublishEndCause.readerDone⟩).1
        = [SrtEvent.addPublisherCall 7, SrtEvent.sleepMs pauseAfterAuthError]
  ∧ (runPublish ⟨7, AdmissionResult.authError, true, true, ⟨true, true, true, 0⟩,
        PublishEndCause.readerDone⟩).2.2 = SrtErr.auth
  ∧ (runRead ⟨8, AdmissionResult.authError, true, true, true, ReadEndCause.ctxDone⟩).1
        = [SrtEvent.addReaderCall 8, SrtEvent.sleepMs pauseAfterAuthError]
  ∧ (runRead ⟨8, AdmissionResult.authError, true, true, true, ReadEndCause.ctxDone⟩).2.2
        = SrtErr.auth
  ∧ pauseAfterAuthError = 2000
  ∧ (connRun ⟨true, true, true,
        ⟨7, AdmissionResult.authError, true, true, ⟨true, true, true, 0⟩,
          PublishEndCause.readerDone⟩,
        ⟨8, AdmissionResult.authError, true, true, true, ReadEndCause.ctxDone⟩⟩).count
        (SrtEvent.addPublisherCall 7) ≤ 1
  ∧ (connRun ⟨true, true, true,
        ⟨7, AdmissionResult.authError, true, true, ⟨true, true, true, 0⟩,
          PublishEndCause.readerDone⟩,
        ⟨8, AdmissionResult.authError, true, true, true, ReadEndCause.ctxDone⟩⟩).count
        (SrtEvent.addReaderCall 8) ≤ 1 :=
  C3_auth_penalty
    ⟨7, AdmissionResult.authError, true, true, ⟨true, true, true, 0⟩,
      PublishEndCause.readerDone⟩
    ⟨8, AdmissionResult.authError, true, true, true, ReadEndCause.ctxDone⟩
    ⟨true, true, true,
      ⟨7, AdmissionResult.authError, true, true, ⟨true, true, true, 0⟩,
        PublishEndCause.readerDone⟩,
      ⟨8, AdmissionResult.authError, true, true, true, ReadEndCause.ctxDone⟩⟩
    rfl rfl

/-- C5: in every execution of `runPublishReader`, any `writeUnit` event is
strictly preceded by a `startPublisher` event: the stream description is
derived from the ingested media and `StartPublisher` is called before the
first unit is written to the path's stream. -/
theorem C5_start_before_first_unit (env : ReaderEnv) (i u : Nat)
    (h : (runPublishReader env)[i]? = some (SrtEvent.writeUnit u)) :
    ∃ j, j < i ∧ (runPublishReader env)[j]? = some SrtEvent.startPublisher := by
  rcases env with ⟨nr, ts, sp, n⟩
  cases nr with
  | false =>
    exfalso
    have hmem := List.getElem?_mem h
    simp [runPublishReader] at hmem
  | true =>
    cases ts with
    | false =>
      exfalso
      have hmem := List.getElem?_mem h
      simp [runPublishReader] at hmem
    | true =>
      cases sp with
      | false =>
        exfalso
        have hmem := List.getElem?_mem h
        simp [runPublishReader] at hmem
      | true =>
        rcases i with _ | _ | _ | _ | i
        · simp [runPublishReader] at h
        · simp [runPublishReader] at h
        · simp [runPublishReader] at h
        · simp [runPublishReader] at h
        · exact ⟨3, by omega, by simp [runPublishReader]⟩

theorem C5_start_before_first_unit_witness :
    ∃ j, j < 5 ∧ (runPublishReader ⟨true, true, true, 1⟩)[j]?
        = some SrtEvent.startPublisher :=
  C5_start_before_first_unit ⟨true, true, true, 1⟩ 5 0 (by rfl)

/-! ### HLS static source supervisor (`hlsSource.run`, `hlsSource.runInner`) -/

/-- Observable events of the HLS static source. -/
inductive HlsEvent where
  | setReady (ok : Bool)
  | setNotReady
  | rtcpClose
  | logErr
  | clientClose
  | clientWait
  | waitTimer
  | waitCancelled
deriving DecidableEq, Repr

/-- Environment of one `hlsSource.runInner` attempt: whether the client's
`onTracks` callback fired, whether `OnSourceStaticSetReady` returned without
error, and whether the final `select` observed cancellation (`ctx.Done`)
rather than the client's error channel. -/
structure HlsAttemptEnv where
  tracksCalled : Bool
  readyOk : Bool
  cancelled : Bool
deriving DecidableEq, Repr

/-- Embedding of `hlsSource.runInner`.  `stream` becomes non-nil exactly when
`onTracks` ran and `OnSourceStaticSetReady` succeeded; the deferred block
fires `OnSourceStaticSetNotReady` (and closes the RTCP senders) iff `stream`
is non-nil.  The returned `Bool` is `runInner`'s: `true` on an upstream
client error, `false` when cancellation fired (after closing the in-flight
client and awaiting its teardown). -/
def hlsRunInner (env : HlsAttemptEnv) : List HlsEvent × Bool :=
  let readyEvents := if env.tracksCalled then [HlsEvent.setReady env.readyOk] else []
  let streamSet := env.tracksCalled && env.readyOk
  let deferEvents := if streamSet then [HlsEvent.setNotReady, HlsEvent.rtcpClose] else []
  if env.cancelled then
    (readyEvents ++ [HlsEvent.clientClose, HlsEvent.clientWait] ++ deferEvents, false)
  else
    (readyEvents ++ [HlsEvent.logErr] ++ deferEvents, true)

/-- How a run of the supervisor loop ends. -/
inductive HlsExit where
  | cancelledInAttempt
  | cancelledInWait
  | running
deriving DecidableEq, Repr

/-- Embedding of `hlsSource.run`: repeat `runInner`; break when it returns
`false`; otherwise wait for `retryPause` or cancellation, breaking on
cancellation.  The environment supplies each attempt's outcomes and, for each
retry wait, whether cancellation fires during it; an exhausted environment
means the loop is still running. -/
def hlsRun : List (HlsAttemptEnv × Bool) → List HlsEvent × HlsExit
  | [] => ([], HlsExit.running)
  | (a, waitCancelled) :: rest =>
    let r := hlsRunInner a
    if r.2 = false then (r.1, HlsExit.cancelledInAttempt)
    else if waitCancelled then (r.1 ++ [HlsEvent.waitCancelled], HlsExit.cancelledInWait)
    else
      let r2 := hlsRun rest
      (r.1 ++ [HlsEvent.waitTimer] ++ r2.1, r2.2)

/-- C8: an attempt ending with an upstream error never terminates the
supervisor — with every attempt erroring and every wait timing out the loop
is still running; after an error attempt whose wait times out the loop
retries with the next attempt; cancellation during the wait exits; and
cancellation during an attempt closes the in-flight client and awaits its
teardown, in that order, before the loop exits. -/
theorem C8_supervisor_retry (env : List (HlsAttemptEnv × Bool))
    (a : HlsAttemptEnv) (b : Bool) (rest : List (HlsAttemptEnv × Bool)) :
    ((∀ p ∈ env, p.1.cancelled = false ∧ p.2 = false) → (hlsRun env).2 = HlsExit.running)
  ∧ (a.cancelled = false → b = false →
      hlsRun ((a, b) :: rest)
        = ((hlsRunInner a).1 ++ [HlsEvent.waitTimer] ++ (hlsRun rest).1, (hlsRun rest).2))
  ∧ (a.cancelled = false → b = true →
      hlsRun ((a, b) :: rest)
        = ((hlsRunInner a).1 ++ [HlsEvent.waitCancelled], HlsExit.cancelledInWait))
  ∧ (a.cancelled = true →
      (hlsRun ((a, b) :: rest)).2 = HlsExit.cancelledInAttempt
      ∧ [HlsEvent.clientClose, HlsEvent.clientWait].Sublist (hlsRunInner a).1) := by
  refine ⟨?_, ?_, ?_, ?_⟩
  · intro hall
    induction env with
    | nil => rfl
    | cons p rest2 ih =>
      obtain ⟨hpc, hpw⟩ := hall p (List.mem_cons_self _ _)
      have hrest : ∀ q ∈ rest2, q.1.cancelled = false ∧ q.2 = false := by
        intro q hq
        exact hall q (List.mem_cons_of_mem _ hq)
      obtain ⟨pa, pb⟩ := p
      simp only at hpc hpw
      simp [hlsRun, hlsRunInner, hpc, hpw, ih hrest]
  · intro hc hb
    simp [hlsRun, hlsRunInner, hc, hb]
  · intro hc hb
    simp [hlsRun, hlsRunInner, hc, hb]
  · intro hc
    constructor
    · simp [hlsRun, hlsRunInner, hc]
    · simp only [hlsRunInner, hc, if_true]
      exact (List.sublist_append_right _ _).trans (List.sublist_append_left _ _)

theorem C8_supervisor_retry_witness :
    (hlsRun [(⟨false, false, false⟩, false)]).2 = HlsExit.running
  ∧ ((hlsRun [(⟨false, false, true⟩, false)]).2 = HlsExit.cancelledInAttempt
      ∧ [HlsEvent.clientClose, HlsEvent.clientWait].Sublist
          (hlsRunInner ⟨false, false, true⟩).1) := by
  constructor
  · exact (C8_supervisor_retry [(⟨false, false, false⟩, false)]
      ⟨false, false, true⟩ false []).1 (by decide)
  · exact (C8_supervisor_retry [(⟨false, false, false⟩, false)]
      ⟨false, false, true⟩ false []).2.2.2 rfl

/-- C10: within one `runInner` attempt, `OnSourceStaticSetNotReady` is
invoked on exit iff `OnSourceStaticSetReady` was invoked in that attempt and
returned without error; the notifications are paired (the not-ready call
happens at most once, in the deferred block at the end of the attempt, after
the successful ready call). -/
theorem C10_ready_notready_paired (a : HlsAttemptEnv) :
    (HlsEvent.setNotReady ∈ (hlsRunInner a).1 ↔ HlsEvent.setReady true ∈ (hlsRunInner a).1)
  ∧ ((hlsRunInner a).1.count HlsEvent.setNotReady
      = if HlsEvent.setReady true ∈ (hlsRunInner a).1 then 1 else 0)
  ∧ ((a.tracksCalled && a.readyOk) = true →
      ∃ pre, (hlsRunInner a).1 = pre ++ [HlsEvent.setNotReady, HlsEvent.rtcpClose]
        ∧ HlsEvent.setReady true ∈ pre) := by
  rcases a with ⟨t, r, c⟩
  refine ⟨?_, ?_, ?_⟩
  · cases t <;> cases r <;> cases c <;> decide
  · cases t <;> cases r <;> cases c <;> decide
  · intro hset
    have ht : t = true := by
      cases t
      · simp at hset
      · rfl
    have hrr : r = true := by
      cases r
      · rw [ht] at hset
        simp at hset
      · rfl
    cases c with
    | false =>
      refine ⟨[HlsEvent.setReady true, HlsEvent.logErr], ?_, by decide⟩
      rw [ht, hrr]
      rfl
    | true =>
      refine ⟨[HlsEvent.setReady true, HlsEvent.clientClose, HlsEvent.clientWait], ?_,
        by decide⟩
      rw [ht, hrr]
      rfl

theorem C10_ready_notready_paired_witness :
    (HlsEvent.setNotReady ∈ (hlsRunInner ⟨true, true, false⟩).1
        ↔ HlsEvent.setReady true ∈ (hlsRunInner ⟨true, true, false⟩).1)
  ∧ ((hlsRunInner ⟨true, true, false⟩).1.count HlsEvent.setNotReady
      = if HlsEvent.setReady true ∈ (hlsRunInner ⟨true, true, false⟩).1 then 1 else 0)
  ∧ (∃ pre, (hlsRunInner ⟨true, true, false⟩).1
        = pre ++ [HlsEvent.setNotReady, HlsEvent.rtcpClose]
      ∧ HlsEvent.setReady true ∈ pre) :=
  ⟨(C10_ready_notready_paired ⟨true, true, false⟩).1,
   (C10_ready_notready_paired ⟨true, true, false⟩).2.1,
   (C10_ready_notready_paired ⟨true, true, false⟩).2.2 rfl⟩

/-! ### Recorder agent, fmp4 init tracks and negative-DTS normalization

The recorder agent implementation is code of this repository that is not
under src/ — only its test (`internal/record/agent_test.go`) is.  The
definitions below are modelled from the spec, as marked. -/

/-- The media formats exercised by the recorder test, each with the data the
init track needs. -/
inductive RecFormat where
  | h264
  | h265
  | mpeg4Audio (sampleRate : Nat)
  | g711 (sampleRate : Nat)
  | lpcm (sampleRate : Nat)
deriving DecidableEq, Repr

/-- Modelled from the spec: the fmp4 time scale per format — 90 000 for
H.264 and H.265, the sample rate for MPEG4-Audio, G.711 and LPCM (recorder
implementation missing from src/). -/
def RecFormat.fmp4TimeScale : RecFormat → Nat
  | RecFormat.h264 => 90000
  | RecFormat.h265 => 90000
  | RecFormat.mpeg4Audio sr => sr
  | RecFormat.g711 sr => sr
  | RecFormat.lpcm sr => sr

/-- One track declared by the fmp4 init section. -/
structure InitTrack where
  id : Nat
  timeScale : Nat
deriving DecidableEq, Repr

/-- Modelled from the spec: each media of the description becomes one init
track with a stable 1-based ID in description order; `nextID` is the ID the
next media receives (recorder implementation missing from src/; its test
fixes the expected init for a concrete description). -/
def fmp4InitTracksFrom (nextID : Nat) : List RecFormat → List InitTrack
  | [] => []
  | f :: rest => { id := nextID, timeScale := f.fmp4TimeScale } :: fmp4InitTracksFrom (nextID + 1) rest

/-- The init tracks of the first segment for a description. -/
def fmp4InitTracks (desc : List RecFormat) : List InitTrack :=
  fmp4InitTracksFrom 1 desc

/-- The 5-media description of the recorder test: H.264, H.265,
MPEG4-Audio/44100, G.711/8000, LPCM/44100. -/
def testDesc5 : List RecFormat :=
  [RecFormat.h264, RecFormat.h265, RecFormat.mpeg4Audio 44100,
   RecFormat.g711 8000, RecFormat.lpcm 44100]

theorem fmp4InitTracksFrom_ids (desc : List RecFormat) :
    ∀ nextID, (fmp4InitTracksFrom nextID desc).map InitTrack.id
      = List.range' nextID desc.length := by
  induction desc with
  | nil => intro nextID; rfl
  | cons f rest ih =>
    intro nextID
    simp [fmp4InitTracksFrom, List.range', ih (nextID + 1)]

theorem fmp4InitTracksFrom_timeScales (desc : List RecFormat) :
    ∀ nextID, (fmp4InitTracksFrom nextID desc).map InitTrack.timeScale
      = desc.map RecFormat.fmp4TimeScale := by
  induction desc with
  | nil => intro nextID; rfl
  | cons f rest ih =>
    intro nextID
    simp [fmp4InitTracksFrom, ih (nextID + 1)]

/-- C6: the fmp4 init declares one track per media of the description, with
IDs 1..N in description order and format-defined time scales; for the
5-media test description the IDs are 1..5 and the time scales are
90000, 90000, 44100, 8000, 44100. -/
theorem C6_fmp4_init_tracks (desc : List RecFormat) :
    ((fmp4InitTracks desc).map InitTrack.id = List.range' 1 desc.length)
  ∧ ((fmp4InitTracks desc).map InitTrack.timeScale = desc.map RecFormat.fmp4TimeScale)
  ∧ ((fmp4InitTracks desc).length = desc.length)
  ∧ (fmp4InitTracks testDesc5
      = [⟨1, 90000⟩, ⟨2, 90000⟩, ⟨3, 44100⟩, ⟨4, 8000⟩, ⟨5, 44100⟩]) := by
  refine ⟨fmp4InitTracksFrom_ids desc 1, fmp4InitTracksFrom_timeScales desc 1, ?_, by decide⟩
  have h := congrArg List.length (fmp4InitTracksFrom_ids desc 1)
  simpa using h

/-- Modelled from the spec: the normalization shift applied at session start
— the earliest track start DTS, when negative, is shifted to zero and the
same shift is applied to every track; no shift when no start is negative
(recorder fmp4 segmenter missing from src/).  DTS values are in
nanoseconds. -/
def dtsShift (starts : List Int) : Int :=
  max 0 (-(starts.foldr min 0))

/-- The normalized BaseTime of a track with start DTS `startDTS`, still in
nanoseconds. -/
def baseTime (startDTS : Int) (starts : List Int) : Int :=
  startDTS + dtsShift starts

/-- The BaseTime converted to the track's time scale, as written into
`base_media_decode_time`. -/
def baseTimeInScale (startDTS : Int) (starts : List Int) (timeScale : Nat) : Int :=
  (startDTS + dtsShift starts) * timeScale / 1000000000

theorem foldr_min_le_mem {l : List Int} {s : Int} (h : s ∈ l) (a : Int) :
    l.foldr min a ≤ s := by
  induction l with
  | nil => cases h
  | cons x rest ih =>
    rcases List.mem_cons.mp h with rfl | h2
    · exact min_le_left _ _
    · exact le_trans (min_le_right _ _) (ih h2)

/-- C7: the negative-DTS normalization makes every track's BaseTime
non-negative while preserving inter-track alignment (one common shift); on
the test's inputs (H.264 start −50 ms, MPEG4-Audio start −100 ms) the shift
is 100 ms, the audio BaseTime is 0 — strictly below one second both in its
own 44100 time scale and at 90 kHz as the test asserts — and the video
BaseTime is 4500 at 90 kHz. -/
theorem C7_negative_dts (starts : List Int) (s t : Int)
    (hs : s ∈ starts) (ht : t ∈ starts) :
    0 ≤ baseTime s starts
  ∧ baseTime s starts - baseTime t starts = s - t
  ∧ dtsShift [(-50000000 : Int), -100000000] = 100000000
  ∧ baseTimeInScale (-100000000) [(-50000000 : Int), -100000000] 44100 = 0
  ∧ baseTimeInScale (-100000000) [(-50000000 : Int), -100000000] 44100 < 44100
  ∧ baseTimeInScale (-100000000) [(-50000000 : Int), -100000000] 44100 < 90000
  ∧ baseTimeInScale (-50000000) [(-50000000 : Int), -100000000] 90000 = 4500 := by
  refine ⟨?_, ?_, by decide, by decide, by decide, by decide, by decide⟩
  · have hmin : starts.foldr min 0 ≤ s := foldr_min_le_mem hs 0
    have hshift : -(starts.foldr min 0) ≤ dtsShift starts := le_max_right _ _
    have : 0 ≤ s + -(starts.foldr min 0) := by omega
    unfold baseTime
    omega
  · unfold baseTime
    omega

theorem C7_negative_dts_witness :
    0 ≤ baseTime (-100000000) [(-50000000 : Int), -100000000]
  ∧ baseTime (-100000000) [(-50000000 : Int), -100000000]
      - baseTime (-50000000) [(-50000000 : Int), -100000000] = -100000000 - -50000000
  ∧ dtsShift [(-50000000 : Int), -100000000] = 100000000
  ∧ baseTimeInScale (-100000000) [(-50000000 : Int), -100000000] 44100 = 0
  ∧ baseTimeInScale (-100000000) [(-50000000 : Int), -100000000] 44100 < 44100
  ∧ baseTimeInScale (-100000000) [(-50000000 : Int), -100000000] 44100 < 90000
  ∧ baseTimeInScale (-50000000) [(-50000000 : Int), -100000000] 90000 = 4500 :=
  C7_negative_dts [(-50000000 : Int), -100000000] (-100000000) (-50000000)
    (by decide) (by decide)

end MediaMtx
